import Mathlib

/-!
Shallow embedding of the next-core library (Rust) for verification of its
specification claims.

Modelling conventions:
* A filesystem path (Rust `Path`/`PathBuf`) is a list of components; `Path::join`
  is list append.
* The filesystem is an oracle `FS` giving the two predicates the code queries,
  `exists()` and `is_file()`.
* Running an executable with `--version` (`Command::new(p).arg("--version").output()`)
  is an oracle `VersionProbe` from the full executable path to either an OS error
  (the `Err` of `output()`) or a captured `ProcOutput`.
* Machine strings are Lean `String`s; `String::from_utf8_lossy` is modelled as the
  captured stdout already being a string. `str::split_whitespace` and `str::trim`
  are re-implemented below on the character list (ASCII whitespace, which covers
  every string the code and spec mention).
* Rust panics (`Option::unwrap` on `None`) are modelled by an `Option` result
  where `none` marks the panic.
-/

namespace NextCore

/-- A filesystem path as its list of components; `PathBuf::from("./bin/wine")`
becomes `[".", "bin", "wine"]`. -/
abbrev FsPath := List String

/-- Rust `Path::join`: appending the relative path's components. -/
def pathJoin (a b : FsPath) : FsPath := a ++ b

/-- Rust `Path::file_name().and_then(|n| n.to_str())`: the last component.
(The model treats every component as valid UTF-8, as all claims do.) -/
def fileName (p : FsPath) : Option String := p.getLast?

/-- Filesystem oracle: the two predicates the code queries on paths. -/
structure FS where
  pathExists : FsPath → Bool
  isFile : FsPath → Bool

/-- Captured result of a finished child process (`std::process::Output`):
stdout, stderr and the exit status. The code under verification only ever
reads `stdout`. -/
structure ProcOutput where
  stdout : String
  stderr : String
  status : Int
deriving DecidableEq

/-- Kind of an OS-level I/O error (`std::io::ErrorKind`), restricted to the
distinction the code and spec make: `NotFound` versus everything else. -/
inductive IoErrorKind where
  | notFound
  | other
deriving DecidableEq

/-- An OS-level I/O error (`std::io::Error`): a kind plus a message. -/
structure IoError where
  kind : IoErrorKind
  msg : String
deriving DecidableEq

/-- Modelled from the spec: the crate error type lives in `error.rs`, which is
not among the provided sources. Per spec section 7 it is a single closed carrier
whose I/O variant wraps the underlying OS error (`Error::Io(std::io::Error)`);
discovery failures surface as this variant carrying a NotFound-kind OS error. -/
inductive Error where
  | ioErr : IoError → Error
deriving DecidableEq

/-- Kind of the error carried by an `Except Error` result, if any. -/
def errKind {a : Type} : Except Error a → Option IoErrorKind
  | .error (.ioErr e) => some e.kind
  | .ok _ => none

instance {e a : Type} [DecidableEq e] [DecidableEq a] : DecidableEq (Except e a) := fun x y =>
  match x, y with
  | .ok u, .ok v =>
    if h : u = v then isTrue (by rw [h]) else isFalse (fun hc => by cases hc; exact h rfl)
  | .error u, .error v =>
    if h : u = v then isTrue (by rw [h]) else isFalse (fun hc => by cases hc; exact h rfl)
  | .ok _, .error _ => isFalse (fun hc => by cases hc)
  | .error _, .ok _ => isFalse (fun hc => by cases hc)

/-- Oracle for `Command::new(full_path).arg("--version").output()`: maps the
full executable path to the spawn result. -/
abbrev VersionProbe := FsPath → Except IoError ProcOutput

/-- Rust `str::split_whitespace`, worker: walk the characters, collecting the
current word in `acc` (reversed); whitespace ends a word, empty words are
dropped. -/
def splitWsAux : List Char → List Char → List String
  | [], acc => if acc = [] then [] else [String.mk acc.reverse]
  | c :: cs, acc =>
    if c.isWhitespace then
      if acc = [] then splitWsAux cs [] else String.mk acc.reverse :: splitWsAux cs []
    else splitWsAux cs (c :: acc)

/-- Rust `str::split_whitespace` as a list of words (no empty words). -/
def splitWhitespace (s : String) : List String := splitWsAux s.data []

/-- Rust `str::trim`: drop whitespace from both ends. -/
def trimStr (s : String) : String :=
  String.mk (((s.data.dropWhile Char.isWhitespace).reverse.dropWhile Char.isWhitespace).reverse)

/-- Runner metadata (`RunnerInfo` in `runner/mod.rs`): display name, version
string, base directory and relative executable path. -/
structure RunnerInfo where
  name : String
  version : String
  directory : FsPath
  executable : FsPath
deriving DecidableEq

/-- Rust `RunnerInfo::executable_path`: join base directory with the relative
executable. -/
def RunnerInfo.executablePath (i : RunnerInfo) : FsPath :=
  pathJoin i.directory i.executable

/-- Rust `RunnerInfo::try_from(directory, executable)` in `runner/mod.rs`:
1. error (NotFound) if the directory does not exist;
2. error (NotFound) if the joined executable path does not exist or is not a
   regular file;
3. name := last component of the directory, else "unknown";
4. run the executable with `--version`; a spawn failure is surfaced as the
   OS error wrapped in `Error::Io`; otherwise the version is the raw stdout,
   or the name when stdout is empty;
5. return the record. -/
def RunnerInfo.tryFrom (fs : FS) (probe : VersionProbe) (directory executable : FsPath) :
    Except Error RunnerInfo :=
  if !(fs.pathExists directory) then
    .error (.ioErr ⟨.notFound, "does not exist"⟩)
  else
    let fullPath := pathJoin directory executable
    if !(fs.pathExists fullPath) || !(fs.isFile fullPath) then
      .error (.ioErr ⟨.notFound, "executable not found in directory"⟩)
    else
      let name := (fileName directory).getD "unknown"
      match probe fullPath with
      | .error e => .error (.ioErr e)
      | .ok out =>
        let ver := if out.stdout = "" then name else out.stdout
        .ok ⟨name, ver, directory, executable⟩

/-- The `Runner` trait's default `is_available`: the full executable path
exists and is a regular file. -/
def Runner.isAvailableDefault (fs : FS) (info : RunnerInfo) : Bool :=
  fs.pathExists info.executablePath && fs.isFile info.executablePath

/-- The Wine runner (`runner/wine.rs`). -/
structure Wine where
  info : RunnerInfo
deriving DecidableEq

/-- Wine's relative executable, `PathBuf::from("./bin/wine")`. -/
def wineExe : FsPath := [".", "bin", "wine"]

/-- Rust `impl TryFrom<&Path> for Wine`. -/
def Wine.tryFrom (fs : FS) (probe : VersionProbe) (path : FsPath) : Except Error Wine :=
  (RunnerInfo.tryFrom fs probe path wineExe).map Wine.mk

/-- Wine does not override `is_available`. -/
def Wine.isAvailable (fs : FS) (w : Wine) : Bool :=
  Runner.isAvailableDefault fs w.info

/-- The Proton runner (`runner/proton.rs`): its own info plus an owned Wine. -/
structure Proton where
  info : RunnerInfo
  wine : Wine
deriving DecidableEq

/-- Proton's (and GPTK's) relative executable, `PathBuf::from("./proton")`. -/
def protonExe : FsPath := [".", "proton"]

/-- Rust `impl TryFrom<&Path> for Proton`: build the info from `./proton`,
build the inner Wine from the `files` subdirectory, then overwrite the inner
Wine's name with Proton's own name. -/
def Proton.tryFrom (fs : FS) (probe : VersionProbe) (path : FsPath) : Except Error Proton := do
  let info ← RunnerInfo.tryFrom fs probe path protonExe
  let wine ← Wine.tryFrom fs probe (pathJoin path ["files"])
  let wine := { wine with info := { wine.info with name := info.name } }
  .ok { info := info, wine := wine }

/-- Proton does not override `is_available`. -/
def Proton.isAvailable (fs : FS) (p : Proton) : Bool :=
  Runner.isAvailableDefault fs p.info

/-- The UMU runner (`runner/umu.rs`): its own info plus an optional wrapped
Proton. -/
structure UMU where
  info : RunnerInfo
  proton : Option Proton
deriving DecidableEq

/-- UMU's relative executable, `PathBuf::from("./umu-run")`. -/
def umuExe : FsPath := [".", "umu-run"]

/-- Rust `UMU::try_from(path, proton)`: build the info from `./umu-run`, then
replace the stored version by `version.split_whitespace().nth(2)` (the third
whitespace-separated token), falling back to "unknown". -/
def UMU.tryFrom (fs : FS) (probe : VersionProbe) (path : FsPath) (proton : Option Proton) :
    Except Error UMU := do
  let info ← RunnerInfo.tryFrom fs probe path umuExe
  let pretty := ((splitWhitespace info.version).get? 2).getD "unknown"
  .ok { info := { info with version := pretty }, proton := proton }

/-- UMU does not override `is_available`: the trait default runs on UMU's own
info and the wrapped Proton is never consulted. -/
def UMU.isAvailable (fs : FS) (u : UMU) : Bool :=
  Runner.isAvailableDefault fs u.info

/-- Rust `UMU::wine`: `self.proton.as_ref().unwrap().wine()`. The `unwrap`
panics when no Proton is wrapped; the panic is modelled as `none`. -/
def UMU.wine (u : UMU) : Option Wine :=
  match u.proton with
  | some p => some p.wine
  | none => none

/-- Oracle for spawning the prefix-bootstrap child: executable path, arguments,
environment assignments (values are paths) to the spawn result. -/
abbrev RunCmd := FsPath → List String → List (String × FsPath) → Except IoError ProcOutput

/-- Rust `UMU::initialize(prefix)`: first `self.proton.as_ref().unwrap()` —
a panic (`none`) when no Proton is wrapped — then spawn `umu-run wineboot`
with WINEPREFIX and PROTONPATH set; a spawn failure is returned as an I/O
error. -/
def UMU.initPfx (run : RunCmd) (u : UMU) (pfx : FsPath) : Option (Except Error Unit) :=
  match u.proton with
  | none => none
  | some p =>
    some (match run u.info.executablePath ["wineboot"]
            [("WINEPREFIX", pfx), ("PROTONPATH", p.info.directory)] with
          | .error e => .error (.ioErr e)
          | .ok _ => .ok ())

/-- The GPTK runner (`runner/gptk.rs`, macOS-only build): same shape as
Proton. -/
structure GPTK where
  info : RunnerInfo
  wine : Wine
deriving DecidableEq

/-- Rust `impl TryFrom<&Path> for GPTK`: identical construction to Proton
(executable `./proton`, inner Wine from `files/`, name overwritten). -/
def GPTK.tryFrom (fs : FS) (probe : VersionProbe) (path : FsPath) : Except Error GPTK := do
  let info ← RunnerInfo.tryFrom fs probe path protonExe
  let wine ← Wine.tryFrom fs probe (pathJoin path ["files"])
  let wine := { wine with info := { wine.info with name := info.name } }
  .ok { info := info, wine := wine }

/-- The `arch` probe result as the code computes it:
`Command::new("arch").output().map(|o| stdout.trim().to_string()).unwrap_or_default()`. -/
def archOf (archRes : Except IoError ProcOutput) : String :=
  match archRes with
  | .ok o => trimStr o.stdout
  | .error _ => ""

/-- Rust `GPTK::is_available` (overrides the default): false when the full
executable path does not exist (`is_file` is not checked here); otherwise true
exactly when the trimmed output of the `arch` command is "i386" or "arm64". -/
def GPTK.isAvailable (fs : FS) (archRes : Except IoError ProcOutput) (g : GPTK) : Bool :=
  if !(fs.pathExists g.info.executablePath) then
    false
  else
    let arch := archOf archRes
    arch == "i386" || arch == "arm64"

/-- Bottle category (`BottleType` in `bottle.rs`); the Rust `Default` is
`Custom`. -/
inductive BottleType where
  | gaming
  | software
  | custom
deriving DecidableEq

/-- Per-bottle configuration (`BottleConfig` in `bottle.rs`). The Rust
`HashMap<String, String>` environment is modelled as its list of entries. -/
structure BottleConfig where
  runner : Option String
  dxvk_version : Option String
  vkd3d_version : Option String
  environment : List (String × String)
deriving DecidableEq

/-- A bottle (`Bottle` in `bottle.rs`). `active` carries
`#[serde(skip)]`: runtime-only state. -/
structure Bottle where
  name : String
  path : FsPath
  kind : BottleType
  config : BottleConfig
  active : Bool
deriving DecidableEq

/-- The serialized form of a Bottle: exactly the serde-visible fields. The
`active` field does not occur because `#[serde(skip)]` removes it from the
document in both directions. -/
structure PersistedBottle where
  name : String
  path : FsPath
  kind : BottleType
  config : BottleConfig
deriving DecidableEq

/-- Serde serialization of one Bottle: every field except the skipped
`active`. -/
def Bottle.toPersisted (b : Bottle) : PersistedBottle :=
  ⟨b.name, b.path, b.kind, b.config⟩

/-- Serde deserialization of one Bottle record: the stored fields, with the
skipped `active` field taking its `Default` value `false`. -/
def PersistedBottle.toBottle (d : PersistedBottle) : Bottle :=
  ⟨d.name, d.path, d.kind, d.config, false⟩

/-- State of the persistence layer under one base directory: the content of
`<base>/bottles.json`, `none` when the catalog file does not exist, otherwise
the parsed document. (The JSON text itself is abstracted to the parsed record
list: `serde_json::to_string_pretty` followed by `serde_json::from_str` is the
identity on the document.) -/
structure PersistState where
  catalog : Option (List PersistedBottle)
deriving DecidableEq

/-- Rust `Persistence::load_bottles`: if the catalog file does not exist,
return `Ok(vec![])`; otherwise decode the document into bottles. -/
def Persistence.load_bottles (st : PersistState) : Except Error (List Bottle) :=
  match st.catalog with
  | none => .ok []
  | some doc => .ok (doc.map PersistedBottle.toBottle)

/-- Rust `Persistence::save_bottles`: serialize the full list and replace the
catalog file. -/
def Persistence.save_bottles (st : PersistState) (bottles : List Bottle) : PersistState :=
  { st with catalog := some (bottles.map Bottle.toPersisted) }

/-! Concrete fixtures used by witnesses and counterexamples. -/

/-- Filesystem with a UMU layout under base `["u"]`: the base directory and
the `umu-run` executable (a regular file) exist. -/
def fsU : FS where
  pathExists := fun p => p == (["u"] : FsPath) || p == pathJoin ["u"] umuExe
  isFile := fun p => p == pathJoin ["u"] umuExe

/-- Version probe whose stdout is the spec's example raw version output. -/
def probeU : VersionProbe := fun _ => Except.ok ⟨"umu-launcher 1.2.3 stable", "", 0⟩

/-- Filesystem with a Proton/GPTK layout under base `["r"]`: base, `proton`
executable, `files` subdirectory and nested `files/bin/wine` all exist. -/
def fsP : FS where
  pathExists := fun p =>
    p == (["r"] : FsPath) || p == pathJoin ["r"] protonExe ||
    p == (["r", "files"] : FsPath) || p == pathJoin ["r", "files"] wineExe
  isFile := fun p => p == pathJoin ["r"] protonExe || p == pathJoin ["r", "files"] wineExe

/-- Version probe reporting a fixed version string. -/
def probeP : VersionProbe := fun _ => Except.ok ⟨"9.0", "", 0⟩

/-- The Proton that `Proton.tryFrom fsP probeP ["r"]` produces. -/
def p0 : Proton := ⟨⟨"r", "9.0", ["r"], protonExe⟩, ⟨⟨"r", "9.0", ["r", "files"], wineExe⟩⟩⟩

/-- The GPTK that `GPTK.tryFrom fsP probeP ["r"]` produces. -/
def g0 : GPTK := ⟨⟨"r", "9.0", ["r"], protonExe⟩, ⟨⟨"r", "9.0", ["r", "files"], wineExe⟩⟩⟩

/-- Filesystem with a GPTK layout under base `["g"]`. -/
def fsG : FS where
  pathExists := fun p =>
    p == (["g"] : FsPath) || p == pathJoin ["g"] protonExe ||
    p == (["g", "files"] : FsPath) || p == pathJoin ["g", "files"] wineExe
  isFile := fun p => p == pathJoin ["g"] protonExe || p == pathJoin ["g", "files"] wineExe

/-- A constructed GPTK rooted at `["g"]`. -/
def g1 : GPTK := ⟨⟨"g", "9.0", ["g"], protonExe⟩, ⟨⟨"g", "9.0", ["g", "files"], wineExe⟩⟩⟩

/-- Filesystem where GPTK's executable path exists but is not a regular file
(for instance is a directory). -/
def fsGdir : FS := ⟨fun p => p == pathJoin ["g"] protonExe, fun _ => false⟩

/-- A constructed Proton rooted at `["p"]` (whose executable is absent from
`fsUmuOnly`). -/
def pBad : Proton := ⟨⟨"p", "9.0", ["p"], protonExe⟩, ⟨⟨"p", "9.0", ["p", "files"], wineExe⟩⟩⟩

/-- Filesystem where only UMU's executable under `["u"]` exists; in particular
`pBad`'s executable does not. -/
def fsUmuOnly : FS := ⟨fun p => p == pathJoin ["u"] umuExe, fun p => p == pathJoin ["u"] umuExe⟩

/-- A UMU wrapping `pBad`. -/
def u4 : UMU := ⟨⟨"u", "unknown", ["u"], umuExe⟩, some pBad⟩

/-- A UMU constructed with no wrapped Proton. -/
def umuNoProton : UMU := ⟨⟨"u", "unknown", ["u"], umuExe⟩, none⟩

/-- Filesystem on which no path exists. -/
def fsEmpty : FS := ⟨fun _ => false, fun _ => false⟩

/-! Helper lemmas shared by the claim theorems. -/

/-- When the directory checks pass and the probe answers, `RunnerInfo.tryFrom`
succeeds with the name derived from the directory and the raw-stdout-or-name
version. -/
theorem runnerInfo_tryFrom_ok (fs : FS) (probe : VersionProbe) (dir exe : FsPath)
    (out : ProcOutput)
    (hdir : fs.pathExists dir = true)
    (hexe : fs.pathExists (pathJoin dir exe) = true)
    (hfile : fs.isFile (pathJoin dir exe) = true)
    (hp : probe (pathJoin dir exe) = .ok out) :
    RunnerInfo.tryFrom fs probe dir exe =
      .ok ⟨(fileName dir).getD "unknown",
           if out.stdout = "" then (fileName dir).getD "unknown" else out.stdout,
           dir, exe⟩ := by
  simp [RunnerInfo.tryFrom, hdir, hexe, hfile, hp]

/-- When the directory is missing, or the joined executable is not an existing
regular file, `RunnerInfo.tryFrom` fails with a NotFound-kind error. -/
theorem runnerInfo_tryFrom_notFound (fs : FS) (probe : VersionProbe) (dir exe : FsPath)
    (h : fs.pathExists dir = false ∨
         (fs.pathExists (pathJoin dir exe) && fs.isFile (pathJoin dir exe)) = false) :
    ∃ m : String, RunnerInfo.tryFrom fs probe dir exe = .error (.ioErr ⟨.notFound, m⟩) := by
  rcases h with h | h
  · exact ⟨"does not exist", by simp [RunnerInfo.tryFrom, h]⟩
  · cases hd : fs.pathExists dir with
    | false => exact ⟨"does not exist", by simp [RunnerInfo.tryFrom, hd]⟩
    | true =>
      have hcond : (!(fs.pathExists (pathJoin dir exe)) || !(fs.isFile (pathJoin dir exe))) = true := by
        rw [← Bool.not_and, h]; rfl
      exact ⟨"executable not found in directory", by simp [RunnerInfo.tryFrom, hd, hcond]⟩

/-! Claim theorems. -/

/-- C1: saving any finite list of bottles and loading it back returns the same
list except that every loaded bottle's `active` flag is false; the `active`
flag is never written to the persisted form (serialization is unchanged by it)
and never read from it (every deserialized bottle has `active = false`). -/
theorem c1_roundtrip_active_not_persisted :
    (∀ (st : PersistState) (L : List Bottle),
      Persistence.load_bottles (Persistence.save_bottles st L) =
        Except.ok (L.map (fun b => { b with active := false }))) ∧
    (∀ (b : Bottle) (v : Bool), Bottle.toPersisted { b with active := v } = Bottle.toPersisted b) ∧
    (∀ d : PersistedBottle, (PersistedBottle.toBottle d).active = false) := by
  refine ⟨?_, ?_, ?_⟩
  · intro st L
    have h : ∀ b : Bottle, PersistedBottle.toBottle (Bottle.toPersisted b) =
        { b with active := false } := by
      intro b; cases b; rfl
    simp [Persistence.load_bottles, Persistence.save_bottles, List.map_map, Function.comp, h]
  · intro b v; rfl
  · intro d; rfl

/-- C6: when the catalog file does not exist under the base directory,
`load_bottles` returns the empty list successfully, not an error. -/
theorem c6_missing_catalog_empty (st : PersistState) (h : st.catalog = none) :
    Persistence.load_bottles st = Except.ok [] := by
  simp [Persistence.load_bottles, h]

/-- Witness for C6 at the state with no catalog file. -/
theorem c6_witness : Persistence.load_bottles ⟨none⟩ = Except.ok ([] : List Bottle) :=
  c6_missing_catalog_empty ⟨none⟩ rfl

/-- C8: with the directory and executable checks passing, the version probe
determines the outcome: a spawn failure surfaces as that OS error wrapped in
the I/O error variant; a successful run yields a RunnerInfo whose version is
the display name when the captured stdout is empty, and otherwise exactly the
raw captured stdout. -/
theorem c8_version_probe (fs : FS) (probe : VersionProbe) (dir exe : FsPath)
    (hdir : fs.pathExists dir = true)
    (hexe : fs.pathExists (pathJoin dir exe) = true)
    (hfile : fs.isFile (pathJoin dir exe) = true) :
    (∀ e : IoError, probe (pathJoin dir exe) = .error e →
      RunnerInfo.tryFrom fs probe dir exe = .error (.ioErr e)) ∧
    (∀ out : ProcOutput, probe (pathJoin dir exe) = .ok out →
      RunnerInfo.tryFrom fs probe dir exe =
        .ok ⟨(fileName dir).getD "unknown",
             if out.stdout = "" then (fileName dir).getD "unknown" else out.stdout,
             dir, exe⟩) := by
  constructor
  · intro e he
    simp [RunnerInfo.tryFrom, hdir, hexe, hfile, he]
  · intro out ho
    exact runnerInfo_tryFrom_ok fs probe dir exe out hdir hexe hfile ho

/-- Witness for C8: a failing spawn surfaces the OS error; a successful run
with nonempty stdout stores the raw stdout; a successful run with empty stdout
stores the display name. -/
theorem c8_witness :
    RunnerInfo.tryFrom fsU (fun _ => Except.error ⟨IoErrorKind.other, "spawn failed"⟩) ["u"] umuExe =
      Except.error (Error.ioErr ⟨IoErrorKind.other, "spawn failed"⟩) ∧
    RunnerInfo.tryFrom fsU probeU ["u"] umuExe =
      Except.ok ⟨"u", "umu-launcher 1.2.3 stable", ["u"], umuExe⟩ ∧
    RunnerInfo.tryFrom fsU (fun _ => Except.ok ⟨"", "", 0⟩) ["u"] umuExe =
      Except.ok ⟨"u", "u", ["u"], umuExe⟩ := by
  refine ⟨?_, ?_, ?_⟩
  · exact (c8_version_probe fsU (fun _ => Except.error ⟨IoErrorKind.other, "spawn failed"⟩)
      ["u"] umuExe (by decide) (by decide) (by decide)).1 ⟨IoErrorKind.other, "spawn failed"⟩ rfl
  · have h := (c8_version_probe fsU probeU ["u"] umuExe (by decide) (by decide) (by decide)).2
      ⟨"umu-launcher 1.2.3 stable", "", 0⟩ rfl
    exact h.trans (by decide)
  · have h := (c8_version_probe fsU (fun _ => Except.ok ⟨"", "", 0⟩) ["u"] umuExe
      (by decide) (by decide) (by decide)).2 ⟨"", "", 0⟩ rfl
    exact h.trans (by decide)

/-- C10: the version probe ignores the child's exit status and stderr — when
the directory and executable checks pass and the probe spawns, construction
succeeds with the stdout-determined version, and two probe results with the
same stdout (but any statuses and stderr) give identical constructions. -/
theorem c10_probe_ignores_status (fs : FS) (dir exe : FsPath) (out out' : ProcOutput)
    (hdir : fs.pathExists dir = true)
    (hexe : fs.pathExists (pathJoin dir exe) = true)
    (hfile : fs.isFile (pathJoin dir exe) = true)
    (hs : out.stdout = out'.stdout) :
    RunnerInfo.tryFrom fs (fun _ => .ok out) dir exe =
      RunnerInfo.tryFrom fs (fun _ => .ok out') dir exe ∧
    RunnerInfo.tryFrom fs (fun _ => .ok out) dir exe =
      .ok ⟨(fileName dir).getD "unknown",
           if out.stdout = "" then (fileName dir).getD "unknown" else out.stdout,
           dir, exe⟩ := by
  have h1 := runnerInfo_tryFrom_ok fs (fun _ => .ok out) dir exe out hdir hexe hfile rfl
  have h2 := runnerInfo_tryFrom_ok fs (fun _ => .ok out') dir exe out' hdir hexe hfile rfl
  refine ⟨?_, h1⟩
  rw [h1, h2, hs]

/-- Witness for C10: a probe run that exits with status 1 and noisy stderr
still constructs successfully, identically to a clean run with the same
stdout. -/
theorem c10_witness :
    RunnerInfo.tryFrom fsU (fun _ => Except.ok ⟨"v1", "boom", 1⟩) ["u"] umuExe =
      RunnerInfo.tryFrom fsU (fun _ => Except.ok ⟨"v1", "", 0⟩) ["u"] umuExe ∧
    RunnerInfo.tryFrom fsU (fun _ => Except.ok ⟨"v1", "boom", 1⟩) ["u"] umuExe =
      Except.ok ⟨"u", "v1", ["u"], umuExe⟩ := by
  have h := c10_probe_ignores_status fsU ["u"] umuExe ⟨"v1", "boom", 1⟩ ⟨"v1", "", 0⟩
    (by decide) (by decide) (by decide) rfl
  exact ⟨h.1, h.2.trans (by decide)⟩

/-- C9: whenever Proton or (macOS) GPTK construction succeeds, the inner
Wine's display name equals the outer variant's display name. -/
theorem c9_name_propagation (fs : FS) (probe : VersionProbe) (path : FsPath) :
    (∀ p : Proton, Proton.tryFrom fs probe path = Except.ok p →
      p.wine.info.name = p.info.name) ∧
    (∀ g : GPTK, GPTK.tryFrom fs probe path = Except.ok g →
      g.wine.info.name = g.info.name) := by
  constructor
  · intro p hp
    simp only [Proton.tryFrom, bind, Except.bind] at hp
    cases hi : RunnerInfo.tryFrom fs probe path protonExe with
    | error e => rw [hi] at hp; exact absurd hp (by simp)
    | ok info =>
      rw [hi] at hp
      cases hw : Wine.tryFrom fs probe (pathJoin path ["files"]) with
      | error e => rw [hw] at hp; exact absurd hp (by simp)
      | ok w =>
        rw [hw] at hp
        simp only [Except.ok.injEq] at hp
        rw [← hp]
  · intro g hg
    simp only [GPTK.tryFrom, bind, Except.bind] at hg
    cases hi : RunnerInfo.tryFrom fs probe path protonExe with
    | error e => rw [hi] at hg; exact absurd hg (by simp)
    | ok info =>
      rw [hi] at hg
      cases hw : Wine.tryFrom fs probe (pathJoin path ["files"]) with
      | error e => rw [hw] at hg; exact absurd hg (by simp)
      | ok w =>
        rw [hw] at hg
        simp only [Except.ok.injEq] at hg
        rw [← hg]

/-- Witness for C9 on a concrete successful Proton and GPTK construction. -/
theorem c9_witness :
    Proton.tryFrom fsP probeP ["r"] = Except.ok p0 ∧ p0.wine.info.name = p0.info.name ∧
    GPTK.tryFrom fsP probeP ["r"] = Except.ok g0 ∧ g0.wine.info.name = g0.info.name := by
  refine ⟨by decide, (c9_name_propagation fsP probeP ["r"]).1 p0 (by decide), by decide,
    (c9_name_propagation fsP probeP ["r"]).2 g0 (by decide)⟩

/-- C2 counterexample: for the raw output "umu-launcher 1.2.3 stable" the code
stores the third whitespace-separated token "stable", not "1.2.3" as the claim
asserts. -/
theorem c2_counterexample :
    UMU.tryFrom fsU probeU ["u"] none =
      Except.ok ⟨⟨"u", "stable", ["u"], umuExe⟩, none⟩ ∧
    ("stable" : String) ≠ "1.2.3" := by
  refine ⟨by decide, by decide⟩

/-- C2 amended: when the probe's stdout is nonempty, the stored UMU version is
the third whitespace-separated token of that raw output (so for
"umu-launcher 1.2.3 stable" it is "stable"), falling back to "unknown" when
the output has fewer than three tokens. -/
theorem c2_third_token_version (fs : FS) (base : FsPath) (prot : Option Proton)
    (out : ProcOutput)
    (hdir : fs.pathExists base = true)
    (hexe : fs.pathExists (pathJoin base umuExe) = true)
    (hfile : fs.isFile (pathJoin base umuExe) = true)
    (hne : out.stdout ≠ "") :
    UMU.tryFrom fs (fun _ => Except.ok out) base prot =
      Except.ok ⟨⟨(fileName base).getD "unknown",
                  ((splitWhitespace out.stdout).get? 2).getD "unknown",
                  base, umuExe⟩, prot⟩ := by
  have h := runnerInfo_tryFrom_ok fs (fun _ => Except.ok out) base umuExe out hdir hexe hfile rfl
  simp [UMU.tryFrom, h, bind, Except.bind, if_neg hne]

/-- Witness for the amended C2: the example raw output stores "stable", and a
two-token raw output stores "unknown". -/
theorem c2_witness :
    UMU.tryFrom fsU probeU ["u"] (some pBad) =
      Except.ok ⟨⟨"u", "stable", ["u"], umuExe⟩, some pBad⟩ ∧
    UMU.tryFrom fsU (fun _ => Except.ok ⟨"umu 1.2.3", "", 0⟩) ["u"] none =
      Except.ok ⟨⟨"u", "unknown", ["u"], umuExe⟩, none⟩ := by
  constructor
  · have h := c2_third_token_version fsU ["u"] (some pBad) ⟨"umu-launcher 1.2.3 stable", "", 0⟩
      (by decide) (by decide) (by decide) (by decide)
    exact h.trans (by decide)
  · have h := c2_third_token_version fsU ["u"] none ⟨"umu 1.2.3", "", 0⟩
      (by decide) (by decide) (by decide) (by decide)
    exact h.trans (by decide)

/-- C3 counterexample: with the GPTK executable existing as a regular file and
the host arch reported as "x86_64", the code returns false although the claim
asserts true; and with the executable path existing but not a regular file and
arch "arm64", the code returns true although the claim's default predicate
requires a regular file. -/
theorem c3_counterexample :
    Runner.isAvailableDefault fsG g1.info = true ∧
    archOf (Except.ok ⟨"x86_64", "", 0⟩) = "x86_64" ∧
    GPTK.isAvailable fsG (Except.ok ⟨"x86_64", "", 0⟩) g1 = false ∧
    Runner.isAvailableDefault fsGdir g1.info = false ∧
    GPTK.isAvailable fsGdir (Except.ok ⟨"arm64", "", 0⟩) g1 = true := by
  decide

/-- C3 amended: GPTK's `is_available` returns true exactly when the full
executable path exists (whether it is a regular file is not checked here) and
the trimmed output of the `arch` command is "i386" or "arm64"; any other
reported architecture, including "x86_64", yields false even when the
executable exists. -/
theorem c3_arch_gate (fs : FS) (archRes : Except IoError ProcOutput) (g : GPTK) :
    GPTK.isAvailable fs archRes g = true ↔
      (fs.pathExists g.info.executablePath = true ∧
        (archOf archRes = "i386" ∨ archOf archRes = "arm64")) := by
  unfold GPTK.isAvailable
  cases he : fs.pathExists g.info.executablePath <;> simp [he]

/-- Witness for the amended C3: with the executable present and arch "arm64",
availability holds. -/
theorem c3_witness : GPTK.isAvailable fsG (Except.ok ⟨"arm64", "", 0⟩) g1 = true :=
  (c3_arch_gate fsG (Except.ok ⟨"arm64", "", 0⟩) g1).mpr ⟨by decide, Or.inr (by decide)⟩

/-- C4 counterexample: a UMU wrapping an unavailable Proton is still reported
available when UMU's own executable exists as a regular file — the wrapped
Proton's availability is never consulted. -/
theorem c4_counterexample :
    u4.proton = some pBad ∧
    Proton.isAvailable fsUmuOnly pBad = false ∧
    UMU.isAvailable fsUmuOnly u4 = true := by
  decide

/-- C4 amended: UMU does not override the trait's default availability, so
`is_available` is exactly the default predicate on UMU's own executable and
is independent of the wrapped Proton. -/
theorem c4_default_availability (fs : FS) (u : UMU) :
    UMU.isAvailable fs u = Runner.isAvailableDefault fs u.info ∧
    (∀ q : Option Proton, UMU.isAvailable fs { u with proton := q } = UMU.isAvailable fs u) :=
  ⟨rfl, fun _ => rfl⟩

/-- C5: at the failing input — a UMU constructed with no wrapped Proton — both
`wine()` and `initialize(prefix)` hit `Option::unwrap` on `None` and panic
(modelled as `none`), contradicting the claim that neither call crashes. -/
theorem c5_unwrap_panics :
    UMU.wine umuNoProton = none ∧
    (∀ (run : RunCmd) (pfx : FsPath), UMU.initPfx run umuNoProton pfx = none) :=
  ⟨rfl, fun _ _ => rfl⟩

/-- C7: for every runner variant, construction from a base path that does not
exist, or from one that lacks that variant's own expected executable as an
existing regular file, returns a NotFound-kind error — each variant under its
own hypothesis only, so a base valid for one variant and invalid for another
is covered. -/
theorem c7_discovery_rejection (fs : FS) (probe : VersionProbe) (base : FsPath)
    (prot : Option Proton) :
    (fs.pathExists base = false ∨
        (fs.pathExists (pathJoin base wineExe) && fs.isFile (pathJoin base wineExe)) = false →
      errKind (Wine.tryFrom fs probe base) = some IoErrorKind.notFound) ∧
    (fs.pathExists base = false ∨
        (fs.pathExists (pathJoin base protonExe) && fs.isFile (pathJoin base protonExe)) = false →
      errKind (Proton.tryFrom fs probe base) = some IoErrorKind.notFound) ∧
    (fs.pathExists base = false ∨
        (fs.pathExists (pathJoin base umuExe) && fs.isFile (pathJoin base umuExe)) = false →
      errKind (UMU.tryFrom fs probe base prot) = some IoErrorKind.notFound) ∧
    (fs.pathExists base = false ∨
        (fs.pathExists (pathJoin base protonExe) && fs.isFile (pathJoin base protonExe)) = false →
      errKind (GPTK.tryFrom fs probe base) = some IoErrorKind.notFound) := by
  refine ⟨?_, ?_, ?_, ?_⟩
  · intro hw
    obtain ⟨mw, hmw⟩ := runnerInfo_tryFrom_notFound fs probe base wineExe hw
    simp [Wine.tryFrom, hmw, Except.map, errKind]
  · intro hp
    obtain ⟨mp, hmp⟩ := runnerInfo_tryFrom_notFound fs probe base protonExe hp
    simp [Proton.tryFrom, hmp, bind, Except.bind, errKind]
  · intro hu
    obtain ⟨mu, hmu⟩ := runnerInfo_tryFrom_notFound fs probe base umuExe hu
    simp [UMU.tryFrom, hmu, bind, Except.bind, errKind]
  · intro hg
    obtain ⟨mg, hmg⟩ := runnerInfo_tryFrom_notFound fs probe base protonExe hg
    simp [GPTK.tryFrom, hmg, bind, Except.bind, errKind]

/-- Witness for C7: on the empty filesystem every variant's construction is
NotFound (missing base); and on `fsP` — a valid Proton directory at `["r"]`
holding `./proton` and `files/bin/wine` but no `./bin/wine` or `./umu-run` at
the base — Wine and UMU construction still fail NotFound while the base
itself exists. -/
theorem c7_witness :
    (errKind (Wine.tryFrom fsEmpty probeP ["z"]) = some IoErrorKind.notFound ∧
     errKind (Proton.tryFrom fsEmpty probeP ["z"]) = some IoErrorKind.notFound ∧
     errKind (UMU.tryFrom fsEmpty probeP ["z"] none) = some IoErrorKind.notFound ∧
     errKind (GPTK.tryFrom fsEmpty probeP ["z"]) = some IoErrorKind.notFound) ∧
    fsP.pathExists ["r"] = true ∧
    errKind (Wine.tryFrom fsP probeP ["r"]) = some IoErrorKind.notFound ∧
    errKind (UMU.tryFrom fsP probeP ["r"] none) = some IoErrorKind.notFound := by
  have he := c7_discovery_rejection fsEmpty probeP ["z"] none
  have hr := c7_discovery_rejection fsP probeP ["r"] none
  exact ⟨⟨he.1 (Or.inl rfl), he.2.1 (Or.inl rfl), he.2.2.1 (Or.inl rfl), he.2.2.2 (Or.inl rfl)⟩,
    by decide, hr.1 (Or.inr (by decide)), hr.2.2.1 (Or.inr (by decide))⟩

end NextCore
